import Mathlib

/-!
Shallow embedding of the sMDT-Controller reconstruction engine
(src/Reconstruction.py and src/EventData.py) and proofs of the
specification claims about it.

Python integer `//` and `%` on a positive divisor agree with Lean's `/`
and `%` on `ℤ` (Euclidean division with nonnegative remainder), so those
are used throughout.  Real-valued float arithmetic is modelled over `ℝ`,
and tube coordinates over `ℚ`.
-/

namespace SMDT

/-- Constant `TUBES_PER_ROW = 12` from Reconstruction.py. -/
def TUBES_PER_ROW : ℤ := 12

/-- Constant `TUBE_SEPARATION = 1` from Reconstruction.py. -/
def TUBE_SEPARATION : ℚ := 1

/-- Constant `OFFSET = 0.5` from Reconstruction.py. -/
def OFFSET : ℚ := 1/2

/-- Constant `ROW_SEPARATION = 1.0` from Reconstruction.py. -/
def ROW_SEPARATION : ℚ := 1

/-- `ReconstructionAlg.tubeID_to_x`: x-position of a tube in the grid.
No range check is performed in the source. -/
def tubeID_to_x (tube_id : ℤ) : ℚ :=
  let row := tube_id / TUBES_PER_ROW
  let column := tube_id % TUBES_PER_ROW
  let x_position := (column : ℚ) * TUBE_SEPARATION
  if row % 2 = 0 then x_position + OFFSET else x_position

/-- `ReconstructionAlg.tubeID_to_y`: y-position of a tube in the grid.
No range check is performed in the source. -/
def tubeID_to_y (tube_id : ℤ) : ℚ :=
  let row := tube_id / TUBES_PER_ROW
  (row : ℚ) * ROW_SEPARATION

/-- `ReconstructionAlg.tubeIDs_to_coordinates`. -/
def tubeIDs_to_coordinates (tube_ids : List ℤ) : List (ℚ × ℚ) :=
  tube_ids.map (fun tube_id => (tubeID_to_x tube_id, tubeID_to_y tube_id))

/-- A hit dictionary as built by `EventData.add_hit`. -/
structure HitRecord where
  tube_number : ℤ
  chamber : ℤ
  layer : ℤ
  tube_in_layer : ℤ
  time_of_flight : ℝ
  time_over_threshold : ℝ

/-- `EventData.add_hit`: the hit dictionary appended for a given
`tube_number`, `tof`, `tot` (no range check is performed in the source). -/
def add_hit (tube_number : ℤ) (tof tot : ℝ) : HitRecord :=
  { tube_number := tube_number
    chamber := if tube_number < 48 then 0 else 1
    layer := (tube_number % 48) / 12
    tube_in_layer := tube_number % 12
    time_of_flight := tof
    time_over_threshold := tot }

/-- Arithmetic mean, as `np.mean` over a nonempty list (on the empty list
`np.mean` is NaN; the embedding yields `0/0 = 0`, and every use below is on
a nonempty list). -/
noncomputable def mean (l : List ℝ) : ℝ := l.sum / l.length

/-- Degree-1 `np.polyfit` slope: the ordinary least-squares slope
`(n·Σxy − Σx·Σy) / (n·Σx² − (Σx)²)`, in exact rational arithmetic. -/
def polyfitSlope (xs ys : List ℚ) : ℚ :=
  let n : ℚ := xs.length
  let sx := xs.sum
  let sy := ys.sum
  let sxy := (List.zipWith (fun x y => x * y) xs ys).sum
  let sxx := (xs.map (fun x => x ^ 2)).sum
  (n * sxy - sx * sy) / (n * sxx - sx ^ 2)

/-- `ReconstructionAlg.fit_line`: least-squares angle through the tube
coordinates, `0.0` for fewer than two tubes, and `π/2` when all x-values
coincide (the Python test `len(set(x_vals)) == 1`, here via `dedup`). -/
noncomputable def fit_line (tube_ids : List ℤ) : ℝ :=
  if tube_ids.length < 2 then 0
  else
    let coordinates := tubeIDs_to_coordinates tube_ids
    let x_vals := coordinates.map Prod.fst
    let y_vals := coordinates.map Prod.snd
    if x_vals.dedup.length = 1 then Real.pi / 2
    else Real.arctan ((polyfitSlope x_vals y_vals : ℚ) : ℝ)

/-- The initial slope guess `initial_m = tan(fit_line(tube_ids))` computed
by `fit_line_through_circles` (the `except` arm setting it to `0.0` is dead:
`fit_line` is total). -/
noncomputable def initial_m (tube_ids : List ℤ) : ℝ :=
  Real.tan (fit_line tube_ids)

/-- `x_center = np.mean(x)` over the tube x-coordinates. -/
noncomputable def x_center (tube_ids : List ℤ) : ℝ :=
  mean ((tubeIDs_to_coordinates tube_ids).map (fun c => ((c.1 : ℚ) : ℝ)))

/-- `y_center = np.mean(y)` over the tube y-coordinates. -/
noncomputable def y_center (tube_ids : List ℤ) : ℝ :=
  mean ((tubeIDs_to_coordinates tube_ids).map (fun c => ((c.2 : ℚ) : ℝ)))

/-- The initial intercept guess `initial_b = y_center − initial_m·x_center`. -/
noncomputable def initial_b (tube_ids : List ℤ) : ℝ :=
  y_center tube_ids - initial_m tube_ids * x_center tube_ids

/-- `ReconstructionAlg.fit_line_through_circles`.  The call to
`scipy.optimize.minimize` is abstracted by the `minimizer` argument:
`some (m, b)` models a run that returned with `success = True` and
`result.x = (m, b)`; `none` models both non-convergence
(`success = False`) and a raised numerical exception, which the source
treats identically (fall back to `(initial_m, initial_b)`).  The result
`none` models the `ValueError` raised on the length guard; every other
path returns `some` pair. -/
noncomputable def fit_line_through_circles (minimizer : Option (ℝ × ℝ))
    (tube_ids : List ℤ) (radii : List ℝ) : Option (ℝ × ℝ) :=
  if tube_ids.length < 2 ∨ tube_ids.length ≠ radii.length then
    none
  else
    match minimizer with
    | some mb => some mb
    | none => some (initial_m tube_ids, initial_b tube_ids)

/-- The clamp at the top of `convert_to_spherical`: inputs of absolute
value below `1e-10` are replaced by `+1e-10`. -/
noncomputable def clampAngle (t : ℝ) : ℝ :=
  if |t| < 1e-10 then 1e-10 else t

/-- `math.atan2 y x`: the angle of the point `(x, y)`, in `(-π, π]`. -/
noncomputable def atan2 (y x : ℝ) : ℝ :=
  if 0 < x then Real.arctan (y / x)
  else if x < 0 then
    (if 0 ≤ y then Real.arctan (y / x) + Real.pi
     else Real.arctan (y / x) - Real.pi)
  else
    (if 0 < y then Real.pi / 2
     else if y < 0 then -(Real.pi / 2)
     else 0)

/-- The polar angle computed inside `convert_to_spherical` before the
`if theta < 0` normalization: `atan(sqrt(1/tan²θ1 + 1/tan²θ2))` on the
clamped inputs. -/
noncomputable def thetaRaw (theta1 theta2 : ℝ) : ℝ :=
  let t1 := clampAngle theta1
  let t2 := clampAngle theta2
  Real.arctan (Real.sqrt (1 / Real.tan t1 ^ 2 + 1 / Real.tan t2 ^ 2))

/-- The azimuthal angle computed inside `convert_to_spherical` before the
`if phi < 0` normalization: `atan2(tanθ1, tanθ2)` on the clamped inputs. -/
noncomputable def phiRaw (theta1 theta2 : ℝ) : ℝ :=
  atan2 (Real.tan (clampAngle theta1)) (Real.tan (clampAngle theta2))

/-- `ReconstructionAlg.convert_to_spherical`. -/
noncomputable def convert_to_spherical (theta1 theta2 : ℝ) : ℝ × ℝ :=
  let theta := thetaRaw theta1 theta2
  let phi := phiRaw theta1 theta2
  (if theta < 0 then theta + Real.pi else theta,
   if phi < 0 then phi + 2 * Real.pi else phi)

/-- `ReconstructionAlg.calibrated_radius`: the logistic sigmoid of
`a + b·tof + c·tot` with `(a, b, c) = (−2, 2e-2, 2e-2)`. -/
noncomputable def calibrated_radius (tof tot : ℝ) : ℝ :=
  let a : ℝ := -2
  let b : ℝ := 2e-2
  let c : ℝ := 2e-2
  let poly := a + b * tof + c * tot
  1 / (1 + Real.exp (-poly))

/-- `math.degrees`. -/
noncomputable def degrees (x : ℝ) : ℝ := x * 180 / Real.pi

/-- The reconstruction dictionary returned by `reconstruct_event`. -/
structure Recon where
  chamber0_hits : ℕ
  chamber1_hits : ℕ
  angle1_deg : ℝ
  angle2_deg : ℝ
  theta_deg : ℝ
  phi_deg : ℝ
  line_params_0 : ℝ × ℝ
  line_params_1 : ℝ × ℝ
  tube_ids_0 : List ℤ
  tube_ids_1 : List ℤ
  radii_0 : List ℝ
  radii_1 : List ℝ

/-- `ReconstructionAlg.reconstruct_event`.  The two
`scipy.optimize.minimize` calls are abstracted by `minimizer0` and
`minimizer1` exactly as in `fit_line_through_circles`.  The source wraps
everything after the `len(hits) < 4` guard in `try/except Exception`, so a
`ValueError` from the fitter (modelled by its `none` result) is converted
to `None`; hence the embedding is a total function into `Option Recon`
and no exception can escape. -/
noncomputable def reconstruct_event (minimizer0 minimizer1 : Option (ℝ × ℝ))
    (hits : List HitRecord) : Option Recon :=
  if hits.length < 4 then none
  else
    let chamber0_hits := hits.filter (fun hit => hit.chamber == 0)
    let chamber1_hits := hits.filter (fun hit => hit.chamber == 1)
    if chamber0_hits.length < 3 ∨ chamber1_hits.length < 3 then none
    else
      let tube_ids_0 := chamber0_hits.map (fun hit => hit.tube_number)
      let tube_ids_1 := chamber1_hits.map (fun hit => hit.tube_number)
      let radii_0 := chamber0_hits.map
        (fun hit => calibrated_radius hit.time_of_flight hit.time_over_threshold)
      let radii_1 := chamber1_hits.map
        (fun hit => calibrated_radius hit.time_of_flight hit.time_over_threshold)
      match fit_line_through_circles minimizer0 tube_ids_0 radii_0,
            fit_line_through_circles minimizer1 tube_ids_1 radii_1 with
      | some (m1, b1), some (m2, b2) =>
        let angle1 := Real.arctan m1
        let angle2 := Real.arctan m2
        let tp := convert_to_spherical angle1 angle2
        some
          { chamber0_hits := chamber0_hits.length
            chamber1_hits := chamber1_hits.length
            angle1_deg := degrees angle1
            angle2_deg := degrees angle2
            theta_deg := degrees tp.1
            phi_deg := degrees tp.2
            line_params_0 := (m1, b1)
            line_params_1 := (m2, b2)
            tube_ids_0 := tube_ids_0
            tube_ids_1 := tube_ids_1
            radii_0 := radii_0
            radii_1 := radii_1 }
      | _, _ => none

/-! ### Helper lemmas -/

lemma arctan_nonneg_of_nonneg {x : ℝ} (h : 0 ≤ x) : 0 ≤ Real.arctan x := by
  rw [← Real.arctan_zero]
  exact Real.arctan_strictMono.monotone h

lemma arctan_nonpos_of_nonpos {x : ℝ} (h : x ≤ 0) : Real.arctan x ≤ 0 := by
  rw [← Real.arctan_zero]
  exact Real.arctan_strictMono.monotone h

lemma arctan_pos_of_pos {x : ℝ} (h : 0 < x) : 0 < Real.arctan x := by
  rw [← Real.arctan_zero]
  exact Real.arctan_strictMono h

lemma neg_pi_lt_atan2 (y x : ℝ) : -Real.pi < atan2 y x ∧ atan2 y x ≤ Real.pi := by
  have hpi := Real.pi_pos
  unfold atan2
  split_ifs with h1 h2 h3 h4 h5
  · have a := Real.arctan_lt_pi_div_two (y / x)
    have b := Real.neg_pi_div_two_lt_arctan (y / x)
    constructor <;> linarith
  · have hyx : y / x ≤ 0 := div_nonpos_iff.mpr (Or.inl ⟨h3, h2.le⟩)
    have a := arctan_nonpos_of_nonpos hyx
    have b := Real.neg_pi_div_two_lt_arctan (y / x)
    constructor <;> linarith
  · have hyx : 0 < y / x := div_pos_iff.mpr (Or.inr ⟨lt_of_not_le h3, h2⟩)
    have a := arctan_pos_of_pos hyx
    have b := Real.arctan_lt_pi_div_two (y / x)
    constructor <;> linarith
  · constructor <;> linarith
  · constructor <;> linarith
  · constructor <;> linarith

lemma dedup_all_eq {α : Type} [DecidableEq α] :
    ∀ (l : List α) (a : α), (∀ b ∈ l, b = a) → a ∈ l → l.dedup = [a]
  | [], a, _, ha => absurd ha (List.not_mem_nil a)
  | c :: t, a, h, _ => by
    have hca : c = a := h c (List.mem_cons_self c t)
    by_cases hc : c ∈ t
    · rw [List.dedup_cons_of_mem hc]
      exact dedup_all_eq t a (fun b hb => h b (List.mem_cons_of_mem c hb))
        (hca ▸ hc)
    · have ht : t = [] := by
        cases t with
        | nil => rfl
        | cons d t2 =>
          have hd : d = a := h d (List.mem_cons_of_mem c (List.mem_cons_self d t2))
          exact absurd (by rw [hca, ← hd]; exact List.mem_cons_self d t2) hc
      rw [List.dedup_cons_of_not_mem hc, ht, List.dedup_nil, hca]

lemma coords_map_fst (tube_ids : List ℤ) :
    (tubeIDs_to_coordinates tube_ids).map Prod.fst = tube_ids.map tubeID_to_x := by
  simp [tubeIDs_to_coordinates, List.map_map, Function.comp]

/-! ### Claims -/

/-- C5: for tube ids in `[0, 95]`, the grid position is
`x = col·TUBE_SEPARATION + OFFSET` on even rows and `col·TUBE_SEPARATION`
on odd rows, `y = row·ROW_SEPARATION` (non-decreasing in the tube id), and
the fields derived by `add_hit` satisfy `chamber = 0 ↔ tube_id < 48`,
`layer = (tube_id % 48) // 12 ∈ {0, 1, 2, 3}`, and
`tube_in_layer = tube_id % 12`. -/
theorem tube_geometry_spec (n m : ℤ) (tof tot : ℝ)
    (h0 : 0 ≤ n) (h95 : n ≤ 95) (hnm : n ≤ m) :
    (tubeID_to_x n =
      if (n / 12) % 2 = 0
      then ((n % 12 : ℤ) : ℚ) * TUBE_SEPARATION + OFFSET
      else ((n % 12 : ℤ) : ℚ) * TUBE_SEPARATION) ∧
    tubeID_to_y n = ((n / 12 : ℤ) : ℚ) * ROW_SEPARATION ∧
    tubeID_to_y n ≤ tubeID_to_y m ∧
    ((add_hit n tof tot).chamber = 0 ↔ n < 48) ∧
    (add_hit n tof tot).layer = (n % 48) / 12 ∧
    (add_hit n tof tot).layer ∈ ({0, 1, 2, 3} : Set ℤ) ∧
    (add_hit n tof tot).tube_in_layer = n % 12 := by
  refine ⟨?_, rfl, ?_, ?_, rfl, ?_, rfl⟩
  · simp only [tubeID_to_x, TUBES_PER_ROW]
  · simp only [tubeID_to_y, TUBES_PER_ROW, ROW_SEPARATION, mul_one]
    have : n / 12 ≤ m / 12 := by omega
    exact_mod_cast this
  · simp only [add_hit]
    split_ifs with h <;> simp [h]
  · simp only [add_hit, Set.mem_insert_iff, Set.mem_singleton_iff]
    omega

/-- Witness for C5 at `n = 50`, `m = 60`, `tof = tot = 0`. -/
theorem tube_geometry_spec_witness :
    (tubeID_to_x 50 =
      if (((50 : ℤ) / 12) % 2) = 0
      then ((((50 : ℤ) % 12) : ℤ) : ℚ) * TUBE_SEPARATION + OFFSET
      else ((((50 : ℤ) % 12) : ℤ) : ℚ) * TUBE_SEPARATION) ∧
    tubeID_to_y 50 = ((((50 : ℤ) / 12) : ℤ) : ℚ) * ROW_SEPARATION ∧
    tubeID_to_y 50 ≤ tubeID_to_y 60 ∧
    ((add_hit 50 0 0).chamber = 0 ↔ (50 : ℤ) < 48) ∧
    (add_hit 50 0 0).layer = (((50 : ℤ) % 48) / 12) ∧
    (add_hit 50 0 0).layer ∈ ({0, 1, 2, 3} : Set ℤ) ∧
    (add_hit 50 0 0).tube_in_layer = (50 : ℤ) % 12 :=
  tube_geometry_spec 50 60 0 0 (by decide) (by decide) (by decide)

/-- C9: for tube numbers in `[0, 95]`, the triple derived by `add_hit`
satisfies `48·chamber + 12·layer + tube_in_layer = tube_number`. -/
theorem add_hit_roundtrip (n : ℤ) (tof tot : ℝ) (h0 : 0 ≤ n) (h95 : n ≤ 95) :
    48 * (add_hit n tof tot).chamber + 12 * (add_hit n tof tot).layer
      + (add_hit n tof tot).tube_in_layer = n := by
  simp only [add_hit]
  split_ifs with h <;> omega

/-- Witness for C9 at `n = 50`. -/
theorem add_hit_roundtrip_witness :
    48 * (add_hit 50 0 0).chamber + 12 * (add_hit 50 0 0).layer
      + (add_hit 50 0 0).tube_in_layer = 50 :=
  add_hit_roundtrip 50 0 0 (by decide) (by decide)

/-- C4 counterexample: at the out-of-range tube id `96`, the geometry
mapping does not raise; it returns the position `(1/2, 8)` computed by the
same row/column formulas (the source has no range check at all). -/
theorem tubeID_out_of_range_returns_position :
    tubeID_to_x 96 = 1 / 2 ∧ tubeID_to_y 96 = 8 := by
  constructor
  · norm_num [tubeID_to_x, TUBES_PER_ROW, TUBE_SEPARATION, OFFSET]
  · norm_num [tubeID_to_y, TUBES_PER_ROW, ROW_SEPARATION]

/-- C4 amended: for every tube id outside `[0, 95]`, the geometry mapping
still returns the position given by the row/column formulas rather than
raising an error (no range check exists in `tubeID_to_x`/`tubeID_to_y`). -/
theorem tubeID_out_of_range_total (n : ℤ) (h : n < 0 ∨ 95 < n) :
    tubeID_to_x n = ((n % 12 : ℤ) : ℚ) * TUBE_SEPARATION
        + (if (n / 12) % 2 = 0 then OFFSET else 0) ∧
    tubeID_to_y n = ((n / 12 : ℤ) : ℚ) * ROW_SEPARATION := by
  refine ⟨?_, rfl⟩
  simp only [tubeID_to_x, TUBES_PER_ROW]
  split_ifs <;> ring

/-- Witness for the amended C4 at `n = 96`. -/
theorem tubeID_out_of_range_total_witness :
    tubeID_to_x 96 = ((((96 : ℤ) % 12) : ℤ) : ℚ) * TUBE_SEPARATION
        + (if (((96 : ℤ) / 12) % 2) = 0 then OFFSET else 0) ∧
    tubeID_to_y 96 = ((((96 : ℤ) / 12) : ℤ) : ℚ) * ROW_SEPARATION :=
  tubeID_out_of_range_total 96 (Or.inr (by decide))

/-- C7: whenever two or more tube ids map to identical x-coordinates,
`fit_line` returns exactly `π/2`. -/
theorem fit_line_vertical (tube_ids : List ℤ) (h2 : 2 ≤ tube_ids.length)
    (hx : ∀ i ∈ tube_ids, ∀ j ∈ tube_ids, tubeID_to_x i = tubeID_to_x j) :
    fit_line tube_ids = Real.pi / 2 := by
  obtain ⟨i0, hi0⟩ : ∃ i, i ∈ tube_ids := by
    cases tube_ids with
    | nil => simp at h2
    | cons a t => exact ⟨a, List.mem_cons_self a t⟩
  have hdedup : ((tubeIDs_to_coordinates tube_ids).map Prod.fst).dedup
      = [tubeID_to_x i0] := by
    rw [coords_map_fst]
    refine dedup_all_eq _ (tubeID_to_x i0) ?_ (List.mem_map_of_mem _ hi0)
    intro b hb
    obtain ⟨j, hj, rfl⟩ := List.mem_map.mp hb
    exact hx j hj i0 hi0
  simp only [fit_line]
  rw [if_neg (by omega), if_pos (by rw [hdedup]; rfl)]

/-- Witness for C7 with tube ids `[0, 24]`, both of which map to `x = 1/2`. -/
theorem fit_line_vertical_witness : fit_line [0, 24] = Real.pi / 2 :=
  fit_line_vertical [0, 24] (by decide)
    (by
      intro i hi j hj
      fin_cases hi <;> fin_cases hj <;>
        norm_num [tubeID_to_x, TUBES_PER_ROW, TUBE_SEPARATION, OFFSET])

/-- C6: `calibrated_radius` lies strictly in `(0, 1)` for all real inputs
and is strictly increasing in `tof` at fixed `tot` and in `tot` at fixed
`tof`. -/
theorem calibrated_radius_spec (tof tot u v : ℝ) :
    (0 < calibrated_radius tof tot ∧ calibrated_radius tof tot < 1) ∧
    (tof < u → calibrated_radius tof tot < calibrated_radius u tot) ∧
    (tot < v → calibrated_radius tof tot < calibrated_radius tof v) := by
  have key : ∀ p q : ℝ, p < q →
      1 / (1 + Real.exp (-p)) < 1 / (1 + Real.exp (-q)) := by
    intro p q hpq
    have h1 : Real.exp (-q) < Real.exp (-p) := Real.exp_lt_exp.mpr (by linarith)
    have h2 : 0 < 1 + Real.exp (-q) := by positivity
    exact one_div_lt_one_div_of_lt h2 (by linarith)
  have hcoef : (0 : ℝ) < 2e-2 := by norm_num
  refine ⟨⟨?_, ?_⟩, ?_, ?_⟩
  · simp only [calibrated_radius]
    positivity
  · simp only [calibrated_radius]
    rw [div_lt_one (by positivity)]
    have := Real.exp_pos (-(-2 + 2e-2 * tof + 2e-2 * tot))
    linarith
  · intro h
    simp only [calibrated_radius]
    apply key
    have := mul_lt_mul_of_pos_left h hcoef
    linarith
  · intro h
    simp only [calibrated_radius]
    apply key
    have := mul_lt_mul_of_pos_left h hcoef
    linarith

/-- Witness for C6 at `(tof, tot) = (0, 0)` against `(1, tot)` and
`(tof, 1)`. -/
theorem calibrated_radius_spec_witness :
    (0 < calibrated_radius 0 0 ∧ calibrated_radius 0 0 < 1) ∧
    calibrated_radius 0 0 < calibrated_radius 1 0 ∧
    calibrated_radius 0 0 < calibrated_radius 0 1 :=
  ⟨(calibrated_radius_spec 0 0 1 1).1,
   (calibrated_radius_spec 0 0 1 1).2.1 (by norm_num),
   (calibrated_radius_spec 0 0 1 1).2.2 (by norm_num)⟩

/-- C2: for all real inputs, `convert_to_spherical` returns `(θ, φ)` with
`θ ∈ [0, π]` and `φ ∈ [0, 2π)`, where `θ` is
`atan(sqrt(1/tan²θ1 + 1/tan²θ2))` of the clamped inputs (the `+π`
normalization never fires, see `theta_branch_unreachable`) and `φ` is
`atan2(tanθ1, tanθ2)` of the clamped inputs plus `2π` when negative. -/
theorem convert_to_spherical_range (t1 t2 : ℝ) :
    0 ≤ (convert_to_spherical t1 t2).1 ∧
    (convert_to_spherical t1 t2).1 ≤ Real.pi ∧
    0 ≤ (convert_to_spherical t1 t2).2 ∧
    (convert_to_spherical t1 t2).2 < 2 * Real.pi ∧
    (convert_to_spherical t1 t2).1 =
      Real.arctan (Real.sqrt
        (1 / Real.tan (clampAngle t1) ^ 2 + 1 / Real.tan (clampAngle t2) ^ 2)) ∧
    (convert_to_spherical t1 t2).2 =
      (if phiRaw t1 t2 < 0 then phiRaw t1 t2 + 2 * Real.pi else phiRaw t1 t2) := by
  have hpi := Real.pi_pos
  have hth0 : 0 ≤ thetaRaw t1 t2 := arctan_nonneg_of_nonneg (Real.sqrt_nonneg _)
  have hth2 : thetaRaw t1 t2 < Real.pi / 2 := Real.arctan_lt_pi_div_two _
  have hphi : -Real.pi < phiRaw t1 t2 ∧ phiRaw t1 t2 ≤ Real.pi := neg_pi_lt_atan2 _ _
  have hfst : (convert_to_spherical t1 t2).1 = thetaRaw t1 t2 :=
    if_neg (not_lt.mpr hth0)
  have hsnd : (convert_to_spherical t1 t2).2 =
      (if phiRaw t1 t2 < 0 then phiRaw t1 t2 + 2 * Real.pi else phiRaw t1 t2) := rfl
  refine ⟨hfst ▸ hth0, hfst ▸ (by linarith), ?_, ?_, hfst, hsnd⟩
  · rw [hsnd]
    split_ifs with hp
    · linarith [hphi.1]
    · exact not_lt.mp hp
  · rw [hsnd]
    split_ifs with hp
    · linarith
    · linarith [hphi.2]

/-- C10: the `theta += pi` normalization branch in `convert_to_spherical`
is unreachable: the pre-normalization polar angle `atan(sqrt(...))` is
never negative, and the returned `θ` always lies in `[0, π/2]`, strictly
inside the documented `[0, π]`. -/
theorem theta_branch_unreachable (t1 t2 : ℝ) :
    ¬ thetaRaw t1 t2 < 0 ∧
    (convert_to_spherical t1 t2).1 = thetaRaw t1 t2 ∧
    0 ≤ (convert_to_spherical t1 t2).1 ∧
    (convert_to_spherical t1 t2).1 ≤ Real.pi / 2 := by
  have hth0 : 0 ≤ thetaRaw t1 t2 := arctan_nonneg_of_nonneg (Real.sqrt_nonneg _)
  have hth2 : thetaRaw t1 t2 < Real.pi / 2 := Real.arctan_lt_pi_div_two _
  have hfst : (convert_to_spherical t1 t2).1 = thetaRaw t1 t2 :=
    if_neg (not_lt.mpr hth0)
  exact ⟨not_lt.mpr hth0, hfst, hfst ▸ hth0, hfst ▸ hth2.le⟩

/-- C8: at `θ1 = θ2 = π/4`, `convert_to_spherical` returns exactly
`θ = atan(√2)` (≈ 54.7356°) and `φ = π/4` (45°). -/
theorem convert_to_spherical_pi_div_four :
    convert_to_spherical (Real.pi / 4) (Real.pi / 4)
      = (Real.arctan (Real.sqrt 2), Real.pi / 4) := by
  have hpi3 := Real.pi_gt_three
  have heps : (1e-10 : ℝ) ≤ 3 / 4 := by norm_num
  have hclamp : clampAngle (Real.pi / 4) = Real.pi / 4 := by
    unfold clampAngle
    rw [abs_of_pos (by linarith : (0 : ℝ) < Real.pi / 4)]
    rw [if_neg (by linarith)]
  have htan : Real.tan (clampAngle (Real.pi / 4)) = 1 := by
    rw [hclamp, Real.tan_pi_div_four]
  have hth : thetaRaw (Real.pi / 4) (Real.pi / 4) = Real.arctan (Real.sqrt 2) := by
    simp only [thetaRaw]
    rw [htan]
    norm_num
  have hph : phiRaw (Real.pi / 4) (Real.pi / 4) = Real.pi / 4 := by
    unfold phiRaw
    rw [htan]
    unfold atan2
    rw [if_pos (by norm_num : (0 : ℝ) < 1)]
    norm_num [Real.arctan_one]
  show (if thetaRaw (Real.pi / 4) (Real.pi / 4) < 0 then _ else _,
        if phiRaw (Real.pi / 4) (Real.pi / 4) < 0 then _ else _) = _
  rw [hth, hph]
  rw [if_neg (not_lt.mpr (arctan_nonneg_of_nonneg (Real.sqrt_nonneg _)))]
  rw [if_neg (not_lt.mpr (by linarith : (0 : ℝ) ≤ Real.pi / 4))]

/-- C1: `reconstruct_event` returns `none` (and raises nothing — the
embedding is a total function for every minimizer behavior) on every hit
list with fewer than 4 total hits, or fewer than 3 hits in chamber 0, or
fewer than 3 hits in chamber 1. -/
theorem reconstruct_event_guard (min0 min1 : Option (ℝ × ℝ))
    (hits : List HitRecord)
    (h : hits.length < 4
      ∨ (hits.filter (fun hit => hit.chamber == 0)).length < 3
      ∨ (hits.filter (fun hit => hit.chamber == 1)).length < 3) :
    reconstruct_event min0 min1 hits = none := by
  simp only [reconstruct_event]
  split_ifs with h1 h2
  · rfl
  · rfl
  · rcases h with h | h | h
    · exact absurd h h1
    · exact absurd (Or.inl h) h2
    · exact absurd (Or.inr h) h2

/-- Witness for C1 on the empty hit list. -/
theorem reconstruct_event_guard_witness :
    reconstruct_event none none [] = none :=
  reconstruct_event_guard none none [] (Or.inl (by decide))

/-- C3: the circle fitter signals a `ValueError` (modelled `none`) exactly
when given fewer than 2 tube ids or mismatched list lengths; on every
valid input it returns a pair, and when the nonlinear minimizer fails
(non-convergence or exception, modelled by the `none` minimizer) the pair
is the initial linear estimate `(initial_m, initial_b)` from the simple
least-squares line fit. -/
theorem fit_line_through_circles_spec (minimizer : Option (ℝ × ℝ))
    (tube_ids : List ℤ) (radii : List ℝ) :
    (fit_line_through_circles minimizer tube_ids radii = none
        ↔ tube_ids.length < 2 ∨ tube_ids.length ≠ radii.length) ∧
    (¬ (tube_ids.length < 2 ∨ tube_ids.length ≠ radii.length) →
      fit_line_through_circles none tube_ids radii
        = some (initial_m tube_ids, initial_b tube_ids)) := by
  refine ⟨⟨?_, ?_⟩, ?_⟩
  · intro h
    by_contra hg
    unfold fit_line_through_circles at h
    rw [if_neg hg] at h
    cases minimizer with
    | some mb => exact Option.noConfusion h
    | none => exact Option.noConfusion h
  · intro hg
    unfold fit_line_through_circles
    rw [if_pos hg]
  · intro hg
    unfold fit_line_through_circles
    rw [if_neg hg]

/-- Witness for C3 with tube ids `[0, 1]` and radii `[1/2, 1/2]` and a
failing minimizer. -/
theorem fit_line_through_circles_spec_witness :
    fit_line_through_circles none [0, 1] [1 / 2, 1 / 2]
      = some (initial_m [0, 1], initial_b [0, 1]) :=
  (fit_line_through_circles_spec none [0, 1] [1 / 2, 1 / 2]).2 (by decide)

end SMDT
